import Mathlib

/-!
Verification of the multi-turn tool-calling agent loop of
`agents/gemini_agent.py` (class `GeminiAgent`).

The embedding models Python dictionaries as association lists over an
inductive value type `PyVal`, Gemini `types.Part` / `types.Content` as
structures over optional fields, exceptions as `Except String`, and the
two external collaborators (the model invocation service and the tool
registry) as oracle functions supplied to the loop.  `asyncio.gather`
preserves the order of its awaitables, so the concurrent fan-out of tool
dispatches is modelled as an in-order map of `call_function` over the
requested calls.
-/

namespace GeminiAgent

/-- A Python value, as used in tool-result payloads and tool-call argument
mappings.  Dictionaries are association lists in insertion order. -/
inductive PyVal where
  | pynone : PyVal
  | pybool : Bool → PyVal
  | pyint : Int → PyVal
  | pystr : String → PyVal
  | pylist : List PyVal → PyVal
  | pydict : List (String × PyVal) → PyVal

/-- Python truthiness (`bool(v)`) for the values of `PyVal`. -/
def PyVal.truthy : PyVal → Bool
  | .pynone => false
  | .pybool b => b
  | .pyint n => !(n == 0)
  | .pystr s => !(s == "")
  | .pylist xs => !xs.isEmpty
  | .pydict kvs => !kvs.isEmpty

/-- Python `v.get(key, default)`: succeeds on a dictionary, raises
`AttributeError` on every other value. -/
def pyGet (v : PyVal) (key : String) (default : PyVal) : Except String PyVal :=
  match v with
  | .pydict kvs => .ok ((List.lookup key kvs).getD default)
  | _ => .error "AttributeError: object has no attribute get"

/-- Python `v[key]`: succeeds on a dictionary that holds the key, raises
`KeyError` / `TypeError` otherwise. -/
def pySubscript (v : PyVal) (key : String) : Except String PyVal :=
  match v with
  | .pydict kvs =>
    match List.lookup key kvs with
    | some x => .ok x
    | none => .error ("KeyError: " ++ key)
  | _ => .error "TypeError: object is not subscriptable"

/-- Python `d[key] = value` on a dictionary represented as an association
list: replace the value in place if the key exists, append otherwise. -/
def dictSet : List (String × PyVal) → String → PyVal → List (String × PyVal)
  | [], k, v => [(k, v)]
  | (k2, v2) :: rest, k, v =>
    if k2 == k then (k2, v) :: rest else (k2, v2) :: dictSet rest k v

/-- Argument mapping of a tool call (`types.FunctionCall.args`). -/
abbrev Args := List (String × PyVal)

/-- A model-requested tool call (`types.FunctionCall`). -/
structure FunctionCall where
  name : String
  args : Args

/-- A tool result carried by a Part (`types.FunctionResponse`). -/
structure FunctionResponse where
  name : String
  response : PyVal

/-- A conversation Part (`google.genai.types.Part`), restricted to the five
fields the agent reads or writes: `text`, `function_call`,
`function_response`, `file_data` and `inline_data`.  Every field is
optional, exactly as in the library type. -/
structure Part where
  text : Option String := none
  function_call : Option FunctionCall := none
  function_response : Option FunctionResponse := none
  file_data : Option PyVal := none
  inline_data : Option PyVal := none

/-- `types.Part.from_text(text)`. -/
def Part.from_text (t : String) : Part := { text := some t }

/-- `types.Part().from_function_response(name=..., response=...)`. -/
def Part.from_function_response (name : String) (response : PyVal) : Part :=
  { function_response := some ⟨name, response⟩ }

/-- A role-tagged conversation message (`types.Content`). -/
structure Content where
  role : String
  parts : List Part

/-- The value `call_function` returns in Python: a single Part, a list of
Parts, or (on the defective screenshot-failure path) `None`; the `Option`
wrapper at the use site carries the `None` case. -/
inductive PartOrList where
  | single : Part → PartOrList
  | many : List Part → PartOrList

/-- The parts carried by a `PartOrList` (`x if isinstance(x, list) else [x]`). -/
def PartOrList.partsOf : PartOrList → List Part
  | .single p => [p]
  | .many ps => ps

/-- The flattening comprehension of `flatten_and_organise`
(gemini_agent.py lines 52-56). -/
def flattenParts : List PartOrList → List Part
  | [] => []
  | pl :: rest => pl.partsOf ++ flattenParts rest

/-- `GeminiAgent.flatten_and_organise` (gemini_agent.py lines 38-63):
flatten one level of nesting, then place the Parts carrying a
`function_response` before all others, each group in input order. -/
def flatten_and_organise (list_of_parts : List PartOrList) : List Part :=
  let flattened_results := flattenParts list_of_parts
  let function_responses :=
    flattened_results.filter (fun item => item.function_response.isSome)
  let other_responses :=
    flattened_results.filter (fun item => item.function_response.isNone)
  function_responses ++ other_responses

/-- `flatten_and_organise` as invoked from `generate_report`: the gathered
dispatch results may contain Python `None` (the screenshot-failure path of
`call_function` falls through without returning), on which the attribute
access `item.function_response` raises `AttributeError`. -/
def flatten_py (l : List (Option PartOrList)) : Except String (List Part) :=
  if l.all Option.isSome then
    .ok (flatten_and_organise (l.filterMap id))
  else
    .error "AttributeError: NoneType object has no attribute function_response"

/-- The trace event a user-role Part produces in `_process_user_trace`
(gemini_agent.py lines 80-92), if any: the four branches test
`function_response`, `text`, `file_data` and `inline_data` in that order;
a Part with none of them populated leaves the local variable unset. -/
def userEvent? (p : Part) : Option PyVal :=
  match p.function_response with
  | some fr =>
    some (.pydict [("role", .pystr "user"), ("name", .pystr fr.name),
                   ("response", fr.response)])
  | none =>
    match p.text with
    | some t => some (.pydict [("role", .pystr "user"), ("text", .pystr t)])
    | none =>
      match p.file_data with
      | some _ =>
        some (.pydict [("role", .pystr "user"), ("text", .pystr "<IMAGE_DATA>")])
      | none =>
        match p.inline_data with
        | some _ =>
          some (.pydict [("role", .pystr "user"),
                         ("text", .pystr "<INLINE_DATA>")])
        | none => none

/-- The loop body of `_process_user_trace`, carrying the current value of
the Python local `response`: a Part matching no branch appends the stale
previous value, and raises `UnboundLocalError` when no previous value
exists. -/
def processUserParts : List Part → Option PyVal → Except String (List PyVal)
  | [], _ => .ok []
  | p :: ps, prev =>
    match userEvent? p with
    | some e => (processUserParts ps (some e)).map (fun rest => e :: rest)
    | none =>
      match prev with
      | some e => (processUserParts ps (some e)).map (fun rest => e :: rest)
      | none => .error "UnboundLocalError: response referenced before assignment"

/-- `GeminiAgent._process_user_trace` (gemini_agent.py lines 76-94). -/
def _process_user_trace (c : Content) : Except String (List PyVal) :=
  processUserParts c.parts none

/-- `GeminiAgent._process_model_trace` (gemini_agent.py lines 96-111): one
event per Part carrying a `function_call`; a Part without one raises
`AttributeError` inside the `try`, which is caught, logged and skipped. -/
def _process_model_trace (c : Content) : List PyVal :=
  c.parts.filterMap fun p =>
    p.function_call.map fun fc =>
      .pydict [("role", .pystr "model"), ("name", .pystr fc.name),
               ("response", .pydict fc.args)]

/-- `GeminiAgent.process_trace` (gemini_agent.py lines 65-74): user-role
messages go through `_process_user_trace` (which can raise), every other
role through `_process_model_trace`. -/
def process_trace : List Content → Except String (List PyVal)
  | [] => .ok []
  | c :: cs =>
    if c.role == "user" then
      match _process_user_trace c with
      | .error e => .error e
      | .ok evs => (process_trace cs).map (fun rest => evs ++ rest)
    else
      (process_trace cs).map (fun rest => _process_model_trace c ++ rest)

/-- The tool registry and tool bodies, as an oracle: given the tool name
and the keyword-argument mapping, either return the tool result value or
raise.  A missing name (`KeyError` on `self.function_dict[name]`) is the
`.error` case, since the lookup happens inside the `try` of
`call_function`. -/
def ToolOracle : Type := String → PyVal → Except String PyVal

/-- The model invocation service, as an oracle: given the conversation so
far and the allowed function names of the current phase, either return the
parts of `response.candidates[0].content` or raise. -/
def ModelOracle : Type := List Content → List String → Except String (List Part)

/-- Modelled from the spec: `get_image_part` (from `utils/gemini_utils.py`,
which is not under src/) wraps the captured screenshot artifact in a
media-reference Part ("a following mediaReference Part representing the
captured artifact", spec section 4.2). -/
def get_image_part (v : PyVal) : Part := { file_data := some v }

/-- The Part built by the `except` clause of `call_function`
(gemini_agent.py lines 164-170). -/
def excPart (fcname exc : String) : Part :=
  Part.from_function_response fcname
    (.pydict [("result",
      .pystr ("function " ++ fcname ++ " generated an exception: " ++ exc))])

/-- The default string of the `result.get("result", ...)` calls in
`call_function` (gemini_agent.py lines 150 and 160). -/
def errText (fcname : String) : String :=
  "function " ++ fcname ++ " encountered an error"

/-- `GeminiAgent.call_function` (gemini_agent.py lines 113-170).  `none`
models the Python `None` that the screenshot-failure branch produces: the
branch at lines 135-138 builds the error Part as a bare expression but
never returns it, so control falls off the end of the function.  Every
exception raised inside the `try` (the tool body, the `result["success"]`
subscript, the `result.get` attribute access) is converted by the `except`
clause into a single error Part. -/
def call_function (tools : ToolOracle) (fc : FunctionCall) : Option PartOrList :=
  match tools fc.name (.pydict fc.args) with
  | .error exc => some (.single (excPart fc.name exc))
  | .ok result =>
    if fc.name == "get_website_screenshot" then
      match pySubscript result "success" with
      | .error exc => some (.single (excPart fc.name exc))
      | .ok v =>
        if !v.truthy then
          none
        else
          match pyGet result "result" (.pystr (errText fc.name)) with
          | .error exc => some (.single (excPart fc.name exc))
          | .ok artifact =>
            some (.many
              [Part.from_function_response fc.name
                (.pydict [("result",
                  .pystr "Screenshot successfully taken and will be subsequently appended.")]),
               get_image_part artifact])
    else
      match pyGet result "result" (.pystr (errText fc.name)) with
      | .error exc => some (.single (excPart fc.name exc))
      | .ok r =>
        some (.single (Part.from_function_response fc.name (.pydict [("result", r)])))

/-- The allowed-function-name computation of the turn loop
(gemini_agent.py lines 179-189). -/
def available_functions (first_step think ips : Bool) (fds : List String) :
    List String :=
  if first_step then ["infer_intent"]
  else if think && ips then ["plan_next_step"]
  else fds.filter (fun n => !(n == "plan_next_step" || n == "infer_intent"))

/-- The state of the turn loop between iterations: the conversation, the
`think` and `first_step` flags, and the captured submission arguments
(`return_dict`). -/
structure LoopState where
  messages : List Content
  think : Bool
  first_step : Bool
  return_dict : Option Args

/-- The outcome of one iteration of the `while` body: either the function
returns (with a result or by raising), or the loop continues with a new
state. -/
inductive TurnOutcome where
  | finished : Except String PyVal → TurnOutcome
  | continued : LoopState → TurnOutcome

/-- The failure dictionary built by the `except` handler of
`generate_report` (gemini_agent.py lines 252-257); the handler itself
calls `process_trace`, so a raise there propagates to the caller. -/
def exception_result (e : String) (messages : List Content) :
    Except String PyVal :=
  match process_trace messages with
  | .ok tr =>
    .ok (.pydict [("error", .pystr e), ("agent_trace", .pylist tr),
                  ("success", .pybool false)])
  | .error e2 => .error e2

/-- The budget-exhaustion dictionary returned after the `while` loop
(gemini_agent.py lines 258-262); this return sits outside the `try`, so a
raise from `process_trace` propagates. -/
def budget_result (messages : List Content) : Except String PyVal :=
  match process_trace messages with
  | .ok tr =>
    .ok (.pydict [("success", .pybool false),
                  ("error", .pystr "Couldn\x27t generate after 50 turns"),
                  ("agent_trace", .pylist tr)])
  | .error e => .error e

/-- The successful return (gemini_agent.py lines 244-248): mutate the
captured `return_dict` with the processed trace and `success=True`.  The
`process_trace` call sits inside the `try`; if it raises, the `except`
handler runs `process_trace` on the same messages and raises again. -/
def success_result (rd : Args) (messages : List Content) : Except String PyVal :=
  match process_trace messages with
  | .ok tr =>
    .ok (.pydict (dictSet (dictSet rd "agent_trace" (.pylist tr))
                    "success" (.pybool true)))
  | .error e => .error e

/-- The corrective message injected for a model Part that is not a tool
call (gemini_agent.py lines 218-228). -/
def corrective_content : Content :=
  ⟨"user", [Part.from_text "Error, not calling tools properly"]⟩

/-- The conversation after the model message and the per-part corrective
messages of one turn have been appended (gemini_agent.py lines 206-228). -/
def turn_messages (msgs : List Content) (parts : List Part) : List Content :=
  msgs ++ [⟨"model", parts⟩] ++
    (parts.filter (fun p => p.function_call.isNone)).map
      (fun _ => corrective_content)

/-- The `return_dict` capture (gemini_agent.py lines 213-214): each
submission request overwrites the capture, so after the part loop it holds
the arguments of the last `submit_report_for_review` call of this turn, or
the previous capture when this turn requested none. -/
def captured_args (rd : Option Args) (parts : List Part) : Option Args :=
  match ((parts.filterMap Part.function_call).filter
          (fun fc => fc.name == "submit_report_for_review")).getLast? with
  | some fc => some fc.args
  | none => rd

/-- The arguments of the last submission call requested in a list of model
parts, if any. -/
def lastSubmitArgs (parts : List Part) : Option Args :=
  (((parts.filterMap Part.function_call).filter
      (fun fc => fc.name == "submit_report_for_review")).getLast?).map
    FunctionCall.args

/-- The termination scan over the merged results (gemini_agent.py lines
236-248): the first Part whose `function_response` is named
`submit_report_for_review` and whose payload satisfies
`response.get("result", {}).get("passedReview")` ends the run; the chained
`get` raises when the value at "result" is not a dictionary. -/
def scan_terminal : List Part → Except String Bool
  | [] => .ok false
  | p :: ps =>
    match p.function_response with
    | some fr =>
      if fr.name == "submit_report_for_review" then
        match pyGet fr.response "result" (.pydict []) with
        | .error e => .error e
        | .ok r =>
          match pyGet r "passedReview" .pynone with
          | .error e => .error e
          | .ok v => if v.truthy then .ok true else scan_terminal ps
      else scan_terminal ps
    | none => scan_terminal ps

/-- One iteration of the `while` body of `generate_report`
(gemini_agent.py lines 178-251).  The first turn forces
`available_functions = ["infer_intent"]` and clears `think` (line 181)
before the end-of-turn toggle. -/
def run_turn (model : ModelOracle) (tools : ToolOracle) (ips : Bool)
    (fds : List String) (s : LoopState) : TurnOutcome :=
  match model s.messages (available_functions s.first_step s.think ips fds) with
  | .error e => .finished (exception_result e s.messages)
  | .ok parts =>
    if (parts.filterMap Part.function_call).isEmpty then
      .continued ⟨turn_messages s.messages parts,
        !(if s.first_step then false else s.think), false,
        captured_args s.return_dict parts⟩
    else
      match flatten_py ((parts.filterMap Part.function_call).map
              (call_function tools)) with
      | .error e => .finished (exception_result e (turn_messages s.messages parts))
      | .ok response_parts =>
        match scan_terminal response_parts with
        | .error e =>
          .finished (exception_result e (turn_messages s.messages parts))
        | .ok true =>
          match captured_args s.return_dict parts with
          | some args =>
            .finished (success_result args (turn_messages s.messages parts))
          | none =>
            .finished (exception_result
              "TypeError: NoneType object does not support item assignment"
              (turn_messages s.messages parts))
        | .ok false =>
          .continued ⟨turn_messages s.messages parts ++ [⟨"user", response_parts⟩],
            !(if s.first_step then false else s.think), false,
            captured_args s.return_dict parts⟩

/-- The `while len(messages) < 50` loop of `generate_report`.  The loop is
written with explicit fuel to stay structurally recursive: each iteration
appends at least the model message, so from the initial single-message
conversation at most 49 iterations can pass the guard and fuel 50 is never
exhausted before the guard fails; the fuel-exhausted case returns the same
budget result as a failed guard. -/
def loopFuel (model : ModelOracle) (tools : ToolOracle) (ips : Bool)
    (fds : List String) : Nat → LoopState → Except String PyVal
  | 0, s => budget_result s.messages
  | fuel + 1, s =>
    if s.messages.length < 50 then
      match run_turn model tools ips fds s with
      | .finished r => r
      | .continued s2 => loopFuel model tools ips fds fuel s2
    else budget_result s.messages

/-- The initial loop state of `generate_report` (gemini_agent.py lines
172-176): one user message holding the starting parts, `think = True`,
`first_step = True`, no captured submission. -/
def initState (starting_parts : List Part) : LoopState :=
  ⟨[⟨"user", starting_parts⟩], true, true, none⟩

/-- `GeminiAgent.generate_report` (gemini_agent.py lines 172-262), with
the model invocation service and the tool registry passed as oracles.
`Except.error` models an exception propagating to the caller. -/
def generate_report (model : ModelOracle) (tools : ToolOracle) (ips : Bool)
    (fds : List String) (starting_parts : List Part) : Except String PyVal :=
  loopFuel model tools ips fds 50 (initState starting_parts)

/-- `iterTurn n s` follows `n` successive guard-passing, continuing
iterations of the turn loop from state `s`: `some s2` means the run that
passes through `s` also passes through `s2`, `n` turns later. -/
def iterTurn (model : ModelOracle) (tools : ToolOracle) (ips : Bool)
    (fds : List String) : Nat → LoopState → Option LoopState
  | 0, s => some s
  | n + 1, s =>
    if s.messages.length < 50 then
      match run_turn model tools ips fds s with
      | .continued s2 => iterTurn model tools ips fds n s2
      | .finished _ => none
    else none

/-- A Part populates at least one of the four fields the trace processor
inspects; `_process_user_trace` emits an event for exactly these Parts. -/
def partNonEmpty (p : Part) : Bool :=
  p.function_response.isSome || p.text.isSome || p.file_data.isSome ||
    p.inline_data.isSome

/-- A user-role part list is safe for `_process_user_trace`: it is empty or
its first Part produces an event (otherwise the Python local `response` is
read before assignment and the processor raises). -/
def headPartOk : List Part → Bool
  | [] => true
  | p :: _ => partNonEmpty p

/-- A message is safe for `process_trace`: only user-role messages can make
the trace processor raise, and only through their first Part. -/
def ContentOk (c : Content) : Prop := c.role = "user" → headPartOk c.parts = true

/-- Invariant of the turn loop: every message of the conversation is safe
for `process_trace`. -/
def Inv (msgs : List Content) : Prop := ∀ c ∈ msgs, ContentOk c

/-- Whether `generate_report` returned normally (`.ok`) rather than raising
to its caller (`.error`). -/
def isOkResult : Except String PyVal → Bool
  | .ok _ => true
  | .error _ => false

/-- The parts carried by one gathered dispatch result, the Python `None`
carrying none. -/
def partsOfOpt : Option PartOrList → List Part
  | none => []
  | some pl => pl.partsOf

/-- Statement-side predicate: a Part is a tool result of the designated
submission tool whose payload reports the review verdict as passed, read
with the same accessor chain as gemini_agent.py lines 236-243. -/
def isPassingSubmit (p : Part) : Bool :=
  match p.function_response with
  | some fr =>
    fr.name == "submit_report_for_review" &&
      (match fr.response with
       | .pydict kvs =>
         (match List.lookup "result" kvs with
          | some (.pydict r) => ((List.lookup "passedReview" r).getD .pynone).truthy
          | _ => false)
       | _ => false)
  | none => false

/-- Statement-side accessor: the value a returned result dictionary holds
at a key, when the run returned a dictionary at all. -/
def resultField (r : Except String PyVal) (key : String) : Option PyVal :=
  match r with
  | .ok (.pydict kvs) => List.lookup key kvs
  | _ => none

/-- A Part replaced payload-for-payload: media payloads are overwritten
with a fixed dummy, everything else kept.  Used to state that the trace
never depends on (hence never inlines) media payloads. -/
def scrubPart (p : Part) : Part :=
  { p with file_data := p.file_data.map (fun _ => PyVal.pynone),
           inline_data := p.inline_data.map (fun _ => PyVal.pynone) }

/-- `scrubPart` lifted to a message. -/
def scrubContent (c : Content) : Content := ⟨c.role, c.parts.map scrubPart⟩

/-- A Part with every field unset; `google.genai.types.Part()` allows it. -/
def emptyPart : Part := {}

/-- A tool registry whose screenshot tool reports failure. -/
def ssFailTools : ToolOracle := fun _ _ =>
  .ok (.pydict [("success", .pybool false), ("result", .pystr "screenshot failed")])

/-- A tool registry whose screenshot tool reports success. -/
def ssOkTools : ToolOracle := fun _ _ =>
  .ok (.pydict [("success", .pybool true),
                ("result", .pystr "https://img.example/shot.png")])

/-- A tool registry whose every tool raises. -/
def raisingTools : ToolOracle := fun _ _ => .error "boom"

/-- A tool registry whose every tool returns a plain result value. -/
def okTools : ToolOracle := fun _ _ => .ok (.pydict [("result", .pystr "ok")])

/-- A model oracle that always raises (transport failure). -/
def raisingModel : ModelOracle := fun _ _ => .error "transport failure"

/-- A model oracle that requests one call of the first allowed tool on
every turn. -/
def firstAllowedModel : ModelOracle := fun _ avail =>
  .ok [{ function_call := some ⟨avail.headD "foo", []⟩ }]

/-- The tool-name catalogue used by the concrete runs below. -/
def cexFds : List String := ["infer_intent", "plan_next_step", "foo"]

/-- The state the `firstAllowedModel` run passes through after 25 turns:
each turn appends the model message and the merged results, so the
conversation grows by two messages per turn. -/
def overflowState : LoopState :=
  (iterTurn firstAllowedModel okTools false cexFds 25
    (initState [Part.from_text "x"])).getD (initState [Part.from_text "x"])

/-- A state whose conversation already holds 50 messages. -/
def fullState : LoopState :=
  ⟨List.replicate 50 ⟨"user", [Part.from_text "m"]⟩, true, false, none⟩

/-- A model oracle that requests an intent call on the first turn and
answers every later turn with bare text, requesting no tool call. -/
def textAfterIntentModel : ModelOracle := fun msgs _ =>
  if msgs.length == 1 then .ok [{ function_call := some ⟨"infer_intent", []⟩ }]
  else .ok [Part.from_text "let me think"]

/-- The state of the `textAfterIntentModel` run after its first turn: the
planning phase is due next. -/
def planPhaseState : LoopState :=
  (iterTurn textAfterIntentModel okTools true cexFds 1
    (initState [Part.from_text "msg"])).getD (initState [Part.from_text "msg"])

/-- The state the `textAfterIntentModel` run continues with after the
model answers the planning turn without any tool call. -/
def afterTextTurnState : LoopState :=
  match run_turn textAfterIntentModel okTools true cexFds planPhaseState with
  | .continued s => s
  | .finished _ => planPhaseState

/-- Two submission calls in one turn, tagged by an argument so a tool
oracle can answer them differently. -/
def twoSubmitParts : List Part :=
  [{ function_call := some ⟨"submit_report_for_review", [("v", .pystr "one")]⟩ },
   { function_call := some ⟨"submit_report_for_review", [("v", .pystr "two")]⟩ }]

/-- A model oracle requesting the two tagged submission calls on every
turn. -/
def twoSubmitModel : ModelOracle := fun _ _ => .ok twoSubmitParts

/-- A tool oracle answering the first tagged submission with a bare-string
result payload and the second with a passing review verdict. -/
def twoSubmitTools : ToolOracle := fun _ args =>
  match args with
  | .pydict [("v", .pystr "one")] => .ok (.pydict [("result", .pystr "oops")])
  | _ => .ok (.pydict [("result", .pydict [("passedReview", .pybool true)])])

/-- The merged result Part of the first tagged submission. -/
def submitStrPart : Part :=
  Part.from_function_response "submit_report_for_review"
    (.pydict [("result", .pystr "oops")])

/-- The merged result Part of the second tagged submission: a passing
review verdict. -/
def submitPassPart : Part :=
  Part.from_function_response "submit_report_for_review"
    (.pydict [("result", .pydict [("passedReview", .pybool true)])])

/-- A model oracle requesting a single submission call with a fixed report
argument on every turn. -/
def oneSubmitModel : ModelOracle := fun _ _ =>
  .ok [{ function_call := some ⟨"submit_report_for_review",
          [("report", .pystr "scam")]⟩ }]

/-- A tool oracle whose submission tool reports a passing review. -/
def passReviewTools : ToolOracle := fun _ _ =>
  .ok (.pydict [("result", .pydict [("passedReview", .pybool true)])])

/-- A tool oracle whose submission tool reports a failing review with
feedback. -/
def failReviewTools : ToolOracle := fun _ _ =>
  .ok (.pydict [("result", .pydict [("feedback", .pystr "needs work"),
                                    ("passedReview", .pybool false)])])

/-- Statement-side predicate: the termination scan passes over this Part
without raising and without finding a passing verdict — the Part either
carries no submission result, or carries one whose payload (read with the
accessor chain of gemini_agent.py lines 241-243) reports the review
verdict as not passed. -/
def submitResultFails (p : Part) : Bool :=
  match p.function_response with
  | some fr =>
    if fr.name == "submit_report_for_review" then
      match fr.response with
      | .pydict kvs =>
        match (List.lookup "result" kvs).getD (.pydict []) with
        | .pydict r => !((List.lookup "passedReview" r).getD .pynone).truthy
        | _ => false
      | _ => false
    else true
  | none => true

/-- A fan-out turn: the model requests a search call and a submission call
concurrently. -/
def multiToolParts : List Part :=
  [{ function_call := some ⟨"search_google", [("q", .pystr "scam check")]⟩ },
   { function_call := some ⟨"submit_report_for_review",
      [("report", .pystr "scam")]⟩ }]

/-- A model oracle requesting the fan-out turn above on every turn. -/
def multiToolModel : ModelOracle := fun _ _ => .ok multiToolParts

/-- A tool oracle whose submission tool reports a failing review with
feedback and whose other tools return plain results. -/
def multiToolTools : ToolOracle := fun name _ =>
  if name == "submit_report_for_review" then
    .ok (.pydict [("result", .pydict [("feedback", .pystr "needs work"),
                                      ("passedReview", .pybool false)])])
  else .ok (.pydict [("result", .pystr "search results")])

/-- The merged result Part of the sibling search call. -/
def searchResultPart : Part :=
  Part.from_function_response "search_google"
    (.pydict [("result", .pystr "search results")])

/-- The merged result Part of the failing submission: the reviewer
feedback. -/
def submitFbPart : Part :=
  Part.from_function_response "submit_report_for_review"
    (.pydict [("result", .pydict [("feedback", .pystr "needs work"),
      ("passedReview", .pybool false)])])

theorem filter_isNone_eq_bnot (F : List Part) :
    F.filter (fun p => p.function_response.isNone) =
      F.filter (fun p => !p.function_response.isSome) :=
  List.filter_congr (fun a _ => (Option.bnot_isSome a.function_response).symm)

theorem flatten_and_organise_eq (l : List PartOrList) :
    flatten_and_organise l =
      (flattenParts l).filter (fun p => p.function_response.isSome) ++
        (flattenParts l).filter (fun p => p.function_response.isNone) := rfl

theorem partition_get_mono (A B : List Part)
    (hA : ∀ p ∈ A, p.function_response.isSome = true)
    (hB : ∀ p ∈ B, p.function_response.isNone = true)
    (i j : Nat) (hi : i < (A ++ B).length) (hj : j < (A ++ B).length)
    (hij : i ≤ j) (h : ((A ++ B).get ⟨i, hi⟩).function_response.isNone = true) :
    ((A ++ B).get ⟨j, hj⟩).function_response.isNone = true := by
  simp only [List.get_eq_getElem] at h ⊢
  by_cases hjA : j < A.length
  · have hiA : i < A.length := lt_of_le_of_lt hij hjA
    rw [List.getElem_append_left hiA] at h
    have hs := hA A[i] (List.getElem_mem hiA)
    cases hopt : A[i].function_response with
    | none => rw [hopt] at hs; simp at hs
    | some _ => rw [hopt] at h; simp at h
  · have hjA2 : A.length ≤ j := Nat.le_of_not_lt hjA
    rw [List.getElem_append_right hjA2]
    exact hB _ (List.getElem_mem _)

/-- C8: `flatten_and_organise` is a stable partition of its flattened
input: every Part carrying a `function_response` precedes every Part
without one, and within each of the two groups the relative order equals
the order in the flattened input. -/
theorem flatten_and_organise_stable_partition (l : List PartOrList) :
    ((flatten_and_organise l).filter (fun p => p.function_response.isSome) =
        (flattenParts l).filter (fun p => p.function_response.isSome) ∧
      (flatten_and_organise l).filter (fun p => p.function_response.isNone) =
        (flattenParts l).filter (fun p => p.function_response.isNone)) ∧
    ∀ i j (hi : i < (flatten_and_organise l).length)
      (hj : j < (flatten_and_organise l).length), i ≤ j →
      ((flatten_and_organise l).get ⟨i, hi⟩).function_response.isNone = true →
      ((flatten_and_organise l).get ⟨j, hj⟩).function_response.isNone = true := by
  have hmemA : ∀ p ∈ (flattenParts l).filter
      (fun p => p.function_response.isSome), p.function_response.isSome = true :=
    fun p hp => (List.mem_filter.mp hp).2
  have hmemB : ∀ p ∈ (flattenParts l).filter
      (fun p => p.function_response.isNone), p.function_response.isNone = true :=
    fun p hp => (List.mem_filter.mp hp).2
  constructor
  · constructor
    · have h2 : ((flattenParts l).filter
          (fun p => p.function_response.isNone)).filter
            (fun p => p.function_response.isSome) = [] := by
        refine List.filter_eq_nil_iff.mpr (fun p hp => ?_)
        have := hmemB p hp
        simp only [Option.isNone_iff_eq_none] at this
        simp [this]
      rw [flatten_and_organise_eq, List.filter_append,
        List.filter_eq_self.mpr hmemA, h2, List.append_nil]
    · have h2 : ((flattenParts l).filter
          (fun p => p.function_response.isSome)).filter
            (fun p => p.function_response.isNone) = [] := by
        refine List.filter_eq_nil_iff.mpr (fun p hp => ?_)
        have := hmemA p hp
        simp only [Option.isSome_iff_exists] at this
        obtain ⟨v, hv⟩ := this
        simp [hv]
      rw [flatten_and_organise_eq, List.filter_append,
        List.filter_eq_self.mpr hmemB, h2, List.nil_append]
  · intro i j hi hj hij h
    exact partition_get_mono _ _ hmemA hmemB i j hi hj hij h

/-- Closed instance of C8's theorem: on a concrete mixed input the filter
equations hold and the order hypothesis is discharged at indices 1 and 1. -/
theorem flatten_and_organise_stable_partition_witness :
    ((flatten_and_organise [.single (Part.from_text "t"),
        .many [Part.from_function_response "f" .pynone]]).filter
          (fun p => p.function_response.isSome) =
      (flattenParts [.single (Part.from_text "t"),
        .many [Part.from_function_response "f" .pynone]]).filter
          (fun p => p.function_response.isSome)) ∧
    ((flatten_and_organise [.single (Part.from_text "t"),
        .many [Part.from_function_response "f" .pynone]]).get
          ⟨1, by decide⟩).function_response.isNone = true :=
  ⟨(flatten_and_organise_stable_partition _).1.1,
   (flatten_and_organise_stable_partition _).2 1 1 (by decide) (by decide)
     (Nat.le_refl 1) (by decide)⟩

/-- C10: `flatten_and_organise` returns a permutation of its flattened
input — merging never drops or duplicates a Part. -/
theorem flatten_and_organise_perm (l : List PartOrList) :
    List.Perm (flatten_and_organise l) (flattenParts l) := by
  rw [flatten_and_organise_eq, filter_isNone_eq_bnot]
  exact List.filter_append_perm _ _

/-- C7: when the tool body raises, `call_function` does not propagate the
exception; it returns a single tool-result Part whose payload names the
tool and the exception, so the fan-in step never observes an exception
from dispatch. -/
theorem call_function_exception_contained (tools : ToolOracle)
    (fc : FunctionCall) (e : String)
    (h : tools fc.name (.pydict fc.args) = .error e) :
    call_function tools fc =
      some (.single (Part.from_function_response fc.name
        (.pydict [("result",
          .pystr ("function " ++ fc.name ++ " generated an exception: " ++ e))]))) := by
  simp [call_function, h, excPart]

/-- Closed instance of C7's theorem at a concrete raising tool. -/
theorem call_function_exception_contained_witness :
    call_function raisingTools ⟨"search_google", []⟩ =
      some (.single (Part.from_function_response "search_google"
        (.pydict [("result",
          .pystr "function search_google generated an exception: boom")]))) :=
  call_function_exception_contained raisingTools ⟨"search_google", []⟩ "boom" rfl

/-- C4 (code bug): on screenshot success the dispatcher returns the
acknowledgment tool-result Part followed by the media Part, as claimed;
but on screenshot failure the source builds the error Part as a bare
expression and never returns it (gemini_agent.py lines 135-138), so
dispatch yields Python `None` instead of the claimed single error Part,
and the merge step then raises on that `None`. -/
theorem screenshot_failure_drops_part :
    call_function ssOkTools ⟨"get_website_screenshot", []⟩ =
      some (.many
        [Part.from_function_response "get_website_screenshot"
          (.pydict [("result",
            .pystr "Screenshot successfully taken and will be subsequently appended.")]),
         get_image_part (.pystr "https://img.example/shot.png")]) ∧
    call_function ssFailTools ⟨"get_website_screenshot", []⟩ = none ∧
    flatten_py [call_function ssFailTools ⟨"get_website_screenshot", []⟩] =
      .error "AttributeError: NoneType object has no attribute function_response" :=
  ⟨rfl, rfl, rfl⟩


theorem userEvent_scrub (p : Part) : userEvent? (scrubPart p) = userEvent? p := by
  rcases p with ⟨t, fc, fr, fd, idat⟩
  cases fr <;> cases t <;> cases fd <;> cases idat <;>
    simp [scrubPart, userEvent?]

theorem processUserParts_scrub (ps : List Part) (prev : Option PyVal) :
    processUserParts (ps.map scrubPart) prev = processUserParts ps prev := by
  induction ps generalizing prev with
  | nil => rfl
  | cons p t ih =>
    simp only [List.map_cons, processUserParts, userEvent_scrub]
    cases userEvent? p with
    | some e => simp [ih]
    | none =>
      cases prev with
      | some e => simp [ih]
      | none => rfl

theorem modelTrace_scrub (c : Content) :
    _process_model_trace (scrubContent c) = _process_model_trace c := by
  rcases c with ⟨role, parts⟩
  simp only [_process_model_trace, scrubContent, List.filterMap_map]
  apply List.filterMap_congr
  intro p _
  rcases p with ⟨t, fc, fr, fd, idat⟩
  cases fc <;> simp [scrubPart, Function.comp]

theorem process_trace_scrub (cs : List Content) :
    process_trace (cs.map scrubContent) = process_trace cs := by
  induction cs with
  | nil => rfl
  | cons c t ih =>
    simp only [List.map_cons, process_trace]
    have hrole : (scrubContent c).role = c.role := rfl
    rw [hrole]
    by_cases hr : (c.role == "user") = true
    · have huser : _process_user_trace (scrubContent c) = _process_user_trace c := by
        simp [_process_user_trace, scrubContent, processUserParts_scrub]
      simp [hr, huser, ih]
    · simp only [Bool.not_eq_true] at hr
      simp [hr, modelTrace_scrub, ih]

/-- C9 (amended): `process_trace` is pure and deterministic — two runs on
the same conversation agree — and the trace never depends on (hence never
inlines) media payloads: replacing every `file_data` / `inline_data`
payload leaves the trace unchanged, and a user-role media Part yields
exactly the placeholder marker event whatever its payload.  (Media Parts
in model-role messages are skipped and yield no event at all; see the
counterexample.) -/
theorem process_trace_pure_and_media_opaque :
    (∀ cs : List Content, process_trace cs = process_trace cs) ∧
    (∀ cs : List Content, process_trace (cs.map scrubContent) = process_trace cs) ∧
    (∀ d : PyVal,
      _process_user_trace ⟨"user", [{ file_data := some d }]⟩ =
        .ok [.pydict [("role", .pystr "user"), ("text", .pystr "<IMAGE_DATA>")]]) ∧
    (∀ d : PyVal,
      _process_user_trace ⟨"user", [{ inline_data := some d }]⟩ =
        .ok [.pydict [("role", .pystr "user"), ("text", .pystr "<INLINE_DATA>")]]) :=
  ⟨fun _ => rfl, process_trace_scrub, fun _ => rfl, fun _ => rfl⟩

/-- Counterexample to C9 as stated: a media Part in a model-role message
does not produce a placeholder text marker event — `_process_model_trace`
skips it (the `function_call` attribute access raises and the `except`
clause drops the Part), so the trace of this one-media-Part conversation
is empty. -/
theorem model_media_part_skipped_cex :
    ({ file_data := some (.pystr "https://img.example/a.png") } : Part).file_data.isSome
        = true ∧
    process_trace
        [⟨"model", [{ file_data := some (.pystr "https://img.example/a.png") }]⟩] =
      .ok [] :=
  ⟨rfl, rfl⟩

theorem partNonEmpty_userEvent (p : Part) (h : partNonEmpty p = true) :
    ∃ e, userEvent? p = some e := by
  rcases p with ⟨t, fc, fr, fd, idat⟩
  cases fr <;> cases t <;> cases fd <;> cases idat <;>
    simp_all [partNonEmpty, userEvent?]

theorem processUserParts_some_ok (ps : List Part) (e : PyVal) :
    ∃ evs, processUserParts ps (some e) = .ok evs := by
  induction ps generalizing e with
  | nil => exact ⟨[], rfl⟩
  | cons p t ih =>
    cases he : userEvent? p with
    | some e2 =>
      obtain ⟨evs, hevs⟩ := ih e2
      exact ⟨e2 :: evs, by simp [processUserParts, he, hevs, Except.map]⟩
    | none =>
      obtain ⟨evs, hevs⟩ := ih e
      exact ⟨e :: evs, by simp [processUserParts, he, hevs, Except.map]⟩

theorem processUserParts_headOk (ps : List Part) (h : headPartOk ps = true) :
    ∃ evs, processUserParts ps none = .ok evs := by
  cases ps with
  | nil => exact ⟨[], rfl⟩
  | cons p t =>
    obtain ⟨e, he⟩ := partNonEmpty_userEvent p h
    obtain ⟨evs, hevs⟩ := processUserParts_some_ok t e
    exact ⟨e :: evs, by simp [processUserParts, he, hevs, Except.map]⟩

theorem process_trace_ok_of_inv (msgs : List Content) (h : Inv msgs) :
    ∃ tr, process_trace msgs = .ok tr := by
  induction msgs with
  | nil => exact ⟨[], rfl⟩
  | cons c t ih =>
    obtain ⟨tr, htr⟩ := ih (fun x hx => h x (List.mem_cons_of_mem c hx))
    by_cases hr : c.role = "user"
    · have hok := h c (List.mem_cons_self c t) hr
      obtain ⟨evs, hevs⟩ := processUserParts_headOk c.parts hok
      refine ⟨evs ++ tr, ?_⟩
      simp [process_trace, hr, _process_user_trace, hevs, htr, Except.map]
    · refine ⟨_process_model_trace c ++ tr, ?_⟩
      have hrb : (c.role == "user") = false := by
        simp only [beq_eq_false_iff_ne, ne_eq]
        exact hr
      simp [process_trace, hrb, htr, Except.map]

theorem exception_result_ok (e : String) (msgs : List Content) (h : Inv msgs) :
    isOkResult (exception_result e msgs) = true := by
  obtain ⟨tr, htr⟩ := process_trace_ok_of_inv msgs h
  simp [exception_result, htr, isOkResult]

theorem budget_result_ok (msgs : List Content) (h : Inv msgs) :
    isOkResult (budget_result msgs) = true := by
  obtain ⟨tr, htr⟩ := process_trace_ok_of_inv msgs h
  simp [budget_result, htr, isOkResult]

theorem success_result_ok (rd : Args) (msgs : List Content) (h : Inv msgs) :
    isOkResult (success_result rd msgs) = true := by
  obtain ⟨tr, htr⟩ := process_trace_ok_of_inv msgs h
  simp [success_result, htr, isOkResult]

theorem inv_append (a b : List Content) (ha : Inv a) (hb : Inv b) :
    Inv (a ++ b) := by
  intro c hc
  rcases List.mem_append.mp hc with h | h
  · exact ha c h
  · exact hb c h

theorem inv_model_msg (parts : List Part) : Inv [⟨"model", parts⟩] := by
  intro c hc
  simp only [List.mem_singleton] at hc
  subst hc
  intro hrole
  have hms : ("model" : String) = "user" := hrole
  exact absurd hms (by decide)

theorem inv_correctives (parts : List Part) :
    Inv ((parts.filter (fun p => p.function_call.isNone)).map
      (fun _ => corrective_content)) := by
  intro c hc
  simp only [List.mem_map] at hc
  obtain ⟨p, _, hp⟩ := hc
  subst hp
  intro _
  rfl

theorem inv_turn_messages (msgs : List Content) (parts : List Part)
    (h : Inv msgs) : Inv (turn_messages msgs parts) :=
  inv_append _ _ (inv_append _ _ h (inv_model_msg parts)) (inv_correctives parts)

theorem call_function_parts_ok (tools : ToolOracle) (fc : FunctionCall) :
    ∀ p ∈ partsOfOpt (call_function tools fc), partNonEmpty p = true := by
  intro p hp
  unfold call_function at hp
  repeat' split at hp
  all_goals simp only [partsOfOpt, PartOrList.partsOf, List.mem_singleton,
    List.mem_cons, List.not_mem_nil, or_false] at hp
  all_goals first
    | (subst hp; rfl)
    | (rcases hp with hp | hp <;> subst hp <;> rfl)

theorem mem_flattenParts (l : List PartOrList) (p : Part)
    (h : p ∈ flattenParts l) : ∃ pl ∈ l, p ∈ pl.partsOf := by
  induction l with
  | nil => simp [flattenParts] at h
  | cons x t ih =>
    simp only [flattenParts, List.mem_append] at h
    rcases h with h | h
    · exact ⟨x, List.mem_cons_self x t, h⟩
    · obtain ⟨pl, hpl, hp⟩ := ih h
      exact ⟨pl, List.mem_cons_of_mem x hpl, hp⟩

theorem flatten_py_mem (l : List (Option PartOrList)) (rps : List Part)
    (h : flatten_py l = .ok rps) (p : Part) (hp : p ∈ rps) :
    ∃ o ∈ l, ∃ pl, o = some pl ∧ p ∈ pl.partsOf := by
  unfold flatten_py at h
  split at h
  · simp only [Except.ok.injEq] at h
    subst h
    rw [flatten_and_organise_eq] at hp
    have hp2 : p ∈ flattenParts (l.filterMap id) := by
      rcases List.mem_append.mp hp with h2 | h2
      · exact (List.mem_filter.mp h2).1
      · exact (List.mem_filter.mp h2).1
    obtain ⟨pl, hpl, hmem⟩ := mem_flattenParts _ p hp2
    obtain ⟨o, ho, heq⟩ := List.mem_filterMap.mp hpl
    exact ⟨o, ho, pl, by simpa using heq, hmem⟩
  · simp at h

theorem run_turn_model_error (model : ModelOracle) (tools : ToolOracle)
    (ips : Bool) (fds : List String) (s : LoopState) (e : String)
    (hm : model s.messages (available_functions s.first_step s.think ips fds) =
      .error e) :
    run_turn model tools ips fds s = .finished (exception_result e s.messages) := by
  simp only [run_turn, hm]

theorem run_turn_zero_calls (model : ModelOracle) (tools : ToolOracle)
    (ips : Bool) (fds : List String) (s : LoopState) (parts : List Part)
    (hm : model s.messages (available_functions s.first_step s.think ips fds) =
      .ok parts)
    (hne : (parts.filterMap Part.function_call).isEmpty = true) :
    run_turn model tools ips fds s =
      .continued ⟨turn_messages s.messages parts,
        !(if s.first_step then false else s.think), false,
        captured_args s.return_dict parts⟩ := by
  simp only [run_turn, hm, hne, if_true]

theorem run_turn_flatten_error (model : ModelOracle) (tools : ToolOracle)
    (ips : Bool) (fds : List String) (s : LoopState) (parts : List Part)
    (e : String)
    (hm : model s.messages (available_functions s.first_step s.think ips fds) =
      .ok parts)
    (hne : (parts.filterMap Part.function_call).isEmpty = false)
    (hflat : flatten_py ((parts.filterMap Part.function_call).map
      (call_function tools)) = .error e) :
    run_turn model tools ips fds s =
      .finished (exception_result e (turn_messages s.messages parts)) := by
  simp only [run_turn, hm, hne, hflat, Bool.false_eq_true, if_false]

theorem run_turn_scan_error (model : ModelOracle) (tools : ToolOracle)
    (ips : Bool) (fds : List String) (s : LoopState) (parts rps : List Part)
    (e : String)
    (hm : model s.messages (available_functions s.first_step s.think ips fds) =
      .ok parts)
    (hne : (parts.filterMap Part.function_call).isEmpty = false)
    (hflat : flatten_py ((parts.filterMap Part.function_call).map
      (call_function tools)) = .ok rps)
    (hscan : scan_terminal rps = .error e) :
    run_turn model tools ips fds s =
      .finished (exception_result e (turn_messages s.messages parts)) := by
  simp only [run_turn, hm, hne, hflat, hscan, Bool.false_eq_true, if_false]

theorem run_turn_scan_pass (model : ModelOracle) (tools : ToolOracle)
    (ips : Bool) (fds : List String) (s : LoopState) (parts rps : List Part)
    (args : Args)
    (hm : model s.messages (available_functions s.first_step s.think ips fds) =
      .ok parts)
    (hne : (parts.filterMap Part.function_call).isEmpty = false)
    (hflat : flatten_py ((parts.filterMap Part.function_call).map
      (call_function tools)) = .ok rps)
    (hscan : scan_terminal rps = .ok true)
    (hrd : captured_args s.return_dict parts = some args) :
    run_turn model tools ips fds s =
      .finished (success_result args (turn_messages s.messages parts)) := by
  simp only [run_turn, hm, hne, hflat, hscan, hrd, Bool.false_eq_true, if_false]

theorem run_turn_scan_pass_none (model : ModelOracle) (tools : ToolOracle)
    (ips : Bool) (fds : List String) (s : LoopState) (parts rps : List Part)
    (hm : model s.messages (available_functions s.first_step s.think ips fds) =
      .ok parts)
    (hne : (parts.filterMap Part.function_call).isEmpty = false)
    (hflat : flatten_py ((parts.filterMap Part.function_call).map
      (call_function tools)) = .ok rps)
    (hscan : scan_terminal rps = .ok true)
    (hrd : captured_args s.return_dict parts = none) :
    run_turn model tools ips fds s =
      .finished (exception_result
        "TypeError: NoneType object does not support item assignment"
        (turn_messages s.messages parts)) := by
  simp only [run_turn, hm, hne, hflat, hscan, hrd, Bool.false_eq_true, if_false]

theorem run_turn_review_failed (model : ModelOracle) (tools : ToolOracle)
    (ips : Bool) (fds : List String) (s : LoopState) (parts rps : List Part)
    (hm : model s.messages (available_functions s.first_step s.think ips fds) =
      .ok parts)
    (hne : (parts.filterMap Part.function_call).isEmpty = false)
    (hflat : flatten_py ((parts.filterMap Part.function_call).map
      (call_function tools)) = .ok rps)
    (hscan : scan_terminal rps = .ok false) :
    run_turn model tools ips fds s =
      .continued ⟨turn_messages s.messages parts ++ [⟨"user", rps⟩],
        !(if s.first_step then false else s.think), false,
        captured_args s.return_dict parts⟩ := by
  simp only [run_turn, hm, hne, hflat, hscan, Bool.false_eq_true, if_false]

theorem run_turn_continued_inv (model : ModelOracle) (tools : ToolOracle)
    (ips : Bool) (fds : List String) (s s2 : LoopState)
    (hInv : Inv s.messages)
    (h : run_turn model tools ips fds s = .continued s2) : Inv s2.messages := by
  cases hm : model s.messages (available_functions s.first_step s.think ips fds) with
  | error e =>
    rw [run_turn_model_error model tools ips fds s e hm] at h
    exact TurnOutcome.noConfusion h
  | ok parts =>
    cases hne : (parts.filterMap Part.function_call).isEmpty with
    | true =>
      rw [run_turn_zero_calls model tools ips fds s parts hm hne] at h
      injection h with h
      subst h
      exact inv_turn_messages _ _ hInv
    | false =>
      cases hflat : flatten_py ((parts.filterMap Part.function_call).map
          (call_function tools)) with
      | error e =>
        rw [run_turn_flatten_error model tools ips fds s parts e hm hne hflat] at h
        exact TurnOutcome.noConfusion h
      | ok rps =>
        cases hscan : scan_terminal rps with
        | error e =>
          rw [run_turn_scan_error model tools ips fds s parts rps e hm hne hflat
            hscan] at h
          exact TurnOutcome.noConfusion h
        | ok b =>
          cases b with
          | true =>
            cases hrd : captured_args s.return_dict parts with
            | some args =>
              rw [run_turn_scan_pass model tools ips fds s parts rps args hm hne
                hflat hscan hrd] at h
              exact TurnOutcome.noConfusion h
            | none =>
              rw [run_turn_scan_pass_none model tools ips fds s parts rps hm hne
                hflat hscan hrd] at h
              exact TurnOutcome.noConfusion h
          | false =>
            rw [run_turn_review_failed model tools ips fds s parts rps hm hne
              hflat hscan] at h
            injection h with h
            subst h
            refine inv_append _ _ (inv_turn_messages _ _ hInv) ?_
            intro c hc
            simp only [List.mem_singleton] at hc
            subst hc
            intro _
            cases hrp : rps with
            | nil => rfl
            | cons q t =>
              show partNonEmpty q = true
              have hq : q ∈ rps := by
                rw [hrp]
                exact List.mem_cons_self q t
              obtain ⟨o, ho, pl, hoeq, hmem⟩ := flatten_py_mem _ _ hflat q hq
              obtain ⟨fcx, _, hfcx⟩ := List.mem_map.mp ho
              refine call_function_parts_ok tools fcx q ?_
              rw [hfcx, hoeq]
              exact hmem

theorem run_turn_finished_ok (model : ModelOracle) (tools : ToolOracle)
    (ips : Bool) (fds : List String) (s : LoopState)
    (r : Except String PyVal) (hInv : Inv s.messages)
    (h : run_turn model tools ips fds s = .finished r) : isOkResult r = true := by
  cases hm : model s.messages (available_functions s.first_step s.think ips fds) with
  | error e =>
    rw [run_turn_model_error model tools ips fds s e hm] at h
    injection h with h
    subst h
    exact exception_result_ok _ _ hInv
  | ok parts =>
    cases hne : (parts.filterMap Part.function_call).isEmpty with
    | true =>
      rw [run_turn_zero_calls model tools ips fds s parts hm hne] at h
      exact TurnOutcome.noConfusion h
    | false =>
      cases hflat : flatten_py ((parts.filterMap Part.function_call).map
          (call_function tools)) with
      | error e =>
        rw [run_turn_flatten_error model tools ips fds s parts e hm hne hflat] at h
        injection h with h
        subst h
        exact exception_result_ok _ _ (inv_turn_messages _ _ hInv)
      | ok rps =>
        cases hscan : scan_terminal rps with
        | error e =>
          rw [run_turn_scan_error model tools ips fds s parts rps e hm hne hflat
            hscan] at h
          injection h with h
          subst h
          exact exception_result_ok _ _ (inv_turn_messages _ _ hInv)
        | ok b =>
          cases b with
          | true =>
            cases hrd : captured_args s.return_dict parts with
            | some args =>
              rw [run_turn_scan_pass model tools ips fds s parts rps args hm hne
                hflat hscan hrd] at h
              injection h with h
              subst h
              exact success_result_ok _ _ (inv_turn_messages _ _ hInv)
            | none =>
              rw [run_turn_scan_pass_none model tools ips fds s parts rps hm hne
                hflat hscan hrd] at h
              injection h with h
              subst h
              exact exception_result_ok _ _ (inv_turn_messages _ _ hInv)
          | false =>
            rw [run_turn_review_failed model tools ips fds s parts rps hm hne
              hflat hscan] at h
            exact TurnOutcome.noConfusion h

theorem loopFuel_succ (model : ModelOracle) (tools : ToolOracle) (ips : Bool)
    (fds : List String) (f : Nat) (s : LoopState) :
    loopFuel model tools ips fds (f + 1) s =
      if s.messages.length < 50 then
        match run_turn model tools ips fds s with
        | .finished r => r
        | .continued s2 => loopFuel model tools ips fds f s2
      else budget_result s.messages := rfl

theorem loopFuel_ok (model : ModelOracle) (tools : ToolOracle) (ips : Bool)
    (fds : List String) (fuel : Nat) (s : LoopState) (hInv : Inv s.messages) :
    isOkResult (loopFuel model tools ips fds fuel s) = true := by
  induction fuel generalizing s with
  | zero => exact budget_result_ok _ hInv
  | succ f ih =>
    by_cases hlen : s.messages.length < 50
    · cases hrt : run_turn model tools ips fds s with
      | finished r =>
        have hstep : loopFuel model tools ips fds (f + 1) s = r := by
          rw [loopFuel_succ, if_pos hlen, hrt]
        rw [hstep]
        exact run_turn_finished_ok _ _ _ _ _ _ hInv hrt
      | continued s2 =>
        have hstep : loopFuel model tools ips fds (f + 1) s =
            loopFuel model tools ips fds f s2 := by
          rw [loopFuel_succ, if_pos hlen, hrt]
        rw [hstep]
        exact ih s2 (run_turn_continued_inv _ _ _ _ _ _ hInv hrt)
    · have hstep : loopFuel model tools ips fds (f + 1) s =
          budget_result s.messages := by
        rw [loopFuel_succ, if_neg hlen]
      rw [hstep]
      exact budget_result_ok _ hInv

theorem turn_messages_length_lt (msgs : List Content) (parts : List Part) :
    msgs.length < (turn_messages msgs parts).length := by
  simp only [turn_messages, List.length_append, List.length_map,
    List.length_singleton]
  omega

theorem run_turn_continued_length (model : ModelOracle) (tools : ToolOracle)
    (ips : Bool) (fds : List String) (s s2 : LoopState)
    (h : run_turn model tools ips fds s = .continued s2) :
    s.messages.length < s2.messages.length := by
  cases hm : model s.messages (available_functions s.first_step s.think ips fds) with
  | error e =>
    rw [run_turn_model_error model tools ips fds s e hm] at h
    exact TurnOutcome.noConfusion h
  | ok parts =>
    cases hne : (parts.filterMap Part.function_call).isEmpty with
    | true =>
      rw [run_turn_zero_calls model tools ips fds s parts hm hne] at h
      injection h with h
      subst h
      exact turn_messages_length_lt _ _
    | false =>
      cases hflat : flatten_py ((parts.filterMap Part.function_call).map
          (call_function tools)) with
      | error e =>
        rw [run_turn_flatten_error model tools ips fds s parts e hm hne hflat] at h
        exact TurnOutcome.noConfusion h
      | ok rps =>
        cases hscan : scan_terminal rps with
        | error e =>
          rw [run_turn_scan_error model tools ips fds s parts rps e hm hne hflat
            hscan] at h
          exact TurnOutcome.noConfusion h
        | ok b =>
          cases b with
          | true =>
            cases hrd : captured_args s.return_dict parts with
            | some args =>
              rw [run_turn_scan_pass model tools ips fds s parts rps args hm hne
                hflat hscan hrd] at h
              exact TurnOutcome.noConfusion h
            | none =>
              rw [run_turn_scan_pass_none model tools ips fds s parts rps hm hne
                hflat hscan hrd] at h
              exact TurnOutcome.noConfusion h
          | false =>
            rw [run_turn_review_failed model tools ips fds s parts rps hm hne
              hflat hscan] at h
            injection h with h
            subst h
            have := turn_messages_length_lt s.messages parts
            simp only [List.length_append, List.length_singleton]
            omega

theorem iterTurn_length (model : ModelOracle) (tools : ToolOracle) (ips : Bool)
    (fds : List String) (n : Nat) (s s2 : LoopState)
    (h : iterTurn model tools ips fds n s = some s2) :
    s.messages.length + n ≤ s2.messages.length := by
  induction n generalizing s with
  | zero =>
    injection h with h
    subst h
    omega
  | succ k ih =>
    unfold iterTurn at h
    by_cases hguard : s.messages.length < 50
    · rw [if_pos hguard] at h
      cases hrt : run_turn model tools ips fds s with
      | finished r =>
        rw [hrt] at h
        simp at h
      | continued s3 =>
        rw [hrt] at h
        have h1 := run_turn_continued_length _ _ _ _ _ _ hrt
        have h2 := ih s3 h
        omega
    · rw [if_neg hguard] at h
      simp at h

theorem loopFuel_iterTurn (model : ModelOracle) (tools : ToolOracle) (ips : Bool)
    (fds : List String) (n : Nat) (s s2 : LoopState)
    (h : iterTurn model tools ips fds n s = some s2) (f : Nat) :
    loopFuel model tools ips fds (n + f) s = loopFuel model tools ips fds f s2 := by
  induction n generalizing s with
  | zero =>
    injection h with h
    subst h
    rw [Nat.zero_add]
  | succ k ih =>
    unfold iterTurn at h
    by_cases hguard : s.messages.length < 50
    · rw [if_pos hguard] at h
      cases hrt : run_turn model tools ips fds s with
      | finished r =>
        rw [hrt] at h
        simp at h
      | continued s3 =>
        rw [hrt] at h
        have harith : k + 1 + f = (k + f) + 1 := by omega
        have hstep : loopFuel model tools ips fds ((k + f) + 1) s =
            loopFuel model tools ips fds (k + f) s3 := by
          rw [loopFuel_succ, if_pos hguard, hrt]
        rw [harith, hstep]
        exact ih s3 h
    · rw [if_neg hguard] at h
      simp at h

/-- C6 (amended): provided the first Part of the starting content populates
at least one field (every Part the loop itself appends does), the turn
loop never raises to its caller: every failure path, including any
exception from the model invocation, is returned as an `.ok` failure
dictionary.  Without that proviso the `except` handler itself calls
`process_trace`, which raises on a conversation whose first user Part is
completely empty; see the counterexample. -/
theorem generate_report_no_raise (model : ModelOracle) (tools : ToolOracle)
    (ips : Bool) (fds : List String) (starting_parts : List Part)
    (h : headPartOk starting_parts = true) :
    isOkResult (generate_report model tools ips fds starting_parts) = true := by
  apply loopFuel_ok
  intro c hc
  simp only [initState, List.mem_singleton] at hc
  subst hc
  intro _
  exact h

/-- Closed instance of C6's amended theorem: a transport failure on the
very first model call still yields an `.ok` failure dictionary. -/
theorem generate_report_no_raise_witness :
    isOkResult (generate_report raisingModel okTools false []
      [Part.from_text "hi"]) = true :=
  generate_report_no_raise raisingModel okTools false [] [Part.from_text "hi"] rfl

/-- Counterexample to C6 as stated: with a starting Part that populates no
field, an exception inside the turn loop (here the model invocation
raising) makes the `except` handler call `process_trace`, which raises
`UnboundLocalError`; `generate_report` then raises to its caller instead
of returning a failure result. -/
theorem generate_report_raises_cex :
    raisingModel (initState [emptyPart]).messages
        (available_functions true true false []) = .error "transport failure" ∧
    generate_report raisingModel okTools false [] [emptyPart] =
      .error "UnboundLocalError: response referenced before assignment" :=
  ⟨rfl, rfl⟩

/-- C3 (amended): the conversation grows strictly turn over turn, and a
new turn starts only while the conversation holds fewer than 50 messages;
when that guard fails the loop returns the budget-exhaustion failure
dictionary.  A single turn may however push the conversation past 50
messages, so the run can end with more than 50; see the counterexample. -/
theorem conversation_growth_and_budget (model : ModelOracle) (tools : ToolOracle)
    (ips : Bool) (fds : List String) :
    (∀ s s2 : LoopState, run_turn model tools ips fds s = .continued s2 →
      s.messages.length < s2.messages.length) ∧
    (∀ (fuel : Nat) (s : LoopState), 50 ≤ s.messages.length →
      loopFuel model tools ips fds fuel s = budget_result s.messages) ∧
    (∀ (msgs : List Content) (tr : List PyVal), process_trace msgs = .ok tr →
      budget_result msgs = .ok (.pydict [("success", .pybool false),
        ("error", .pystr "Couldn\x27t generate after 50 turns"),
        ("agent_trace", .pylist tr)])) := by
  refine ⟨run_turn_continued_length model tools ips fds, ?_, ?_⟩
  · intro fuel s hlen
    cases fuel with
    | zero => rfl
    | succ f => rw [loopFuel_succ, if_neg (by omega)]
  · intro msgs tr htr
    simp [budget_result, htr]

/-- Closed instance of C3's amended theorem: strict growth at a concrete
turn, and the budget result on a concrete 50-message state. -/
theorem conversation_growth_and_budget_witness :
    (initState [Part.from_text "msg"]).messages.length <
      planPhaseState.messages.length ∧
    loopFuel textAfterIntentModel okTools true cexFds 3 fullState =
      budget_result fullState.messages :=
  ⟨(conversation_growth_and_budget textAfterIntentModel okTools true cexFds).1
      (initState [Part.from_text "msg"]) planPhaseState rfl,
   (conversation_growth_and_budget textAfterIntentModel okTools true cexFds).2.1
      3 fullState (by simp [fullState])⟩

/-- Counterexample to C3 as stated: a concrete run whose 25th turn starts
at 49 messages and appends both the model message and the merged results,
so the run passes through a conversation of 51 > 50 messages. -/
theorem conversation_exceeds_fifty_cex :
    iterTurn firstAllowedModel okTools false cexFds 25
        (initState [Part.from_text "x"]) = some overflowState ∧
    overflowState.messages.length = 51 ∧
    generate_report firstAllowedModel okTools false cexFds [Part.from_text "x"] =
      loopFuel firstAllowedModel okTools false cexFds 25 overflowState := by
  refine ⟨rfl, rfl, ?_⟩
  have h : iterTurn firstAllowedModel okTools false cexFds 25
      (initState [Part.from_text "x"]) = some overflowState := rfl
  have hb := loopFuel_iterTurn firstAllowedModel okTools false cexFds 25
    (initState [Part.from_text "x"]) overflowState h 25
  have h50 : (25 : Nat) + 25 = 50 := rfl
  rw [h50] at hb
  exact hb

/-- C2 (amended): a turn in which the model requests zero tool calls
appends one corrective user-role text message per returned part, dispatches
no tools, and leaves the captured submission unchanged — but it advances
the phase exactly as a dispatching turn does (the `think` flag is toggled
at gemini_agent.py line 230), rather than repeating the same phase. -/
theorem zero_tool_calls_turn (model : ModelOracle) (tools : ToolOracle)
    (ips : Bool) (fds : List String) (s : LoopState) (ps : List Part)
    (h1 : model s.messages (available_functions s.first_step s.think ips fds) =
      .ok ps)
    (h2 : ps.filterMap Part.function_call = []) :
    run_turn model tools ips fds s =
      .continued ⟨turn_messages s.messages ps,
        !(if s.first_step then false else s.think), false, s.return_dict⟩ := by
  have hne : (ps.filterMap Part.function_call).isEmpty = true := by
    rw [h2]
    rfl
  have hrd : captured_args s.return_dict ps = s.return_dict := by
    unfold captured_args
    rw [h2]
    rfl
  rw [run_turn_zero_calls model tools ips fds s ps h1 hne, hrd]

/-- Closed instance of C2's amended theorem at the concrete planning-phase
state reached after one intent turn. -/
theorem zero_tool_calls_turn_witness :
    run_turn textAfterIntentModel okTools true cexFds planPhaseState =
      .continued ⟨turn_messages planPhaseState.messages
          [Part.from_text "let me think"],
        !(if planPhaseState.first_step then false else planPhaseState.think),
        false, planPhaseState.return_dict⟩ :=
  zero_tool_calls_turn textAfterIntentModel okTools true cexFds planPhaseState
    [Part.from_text "let me think"] rfl rfl

/-- Counterexample to C2 as stated: after the intent turn the run is in
the planning phase (`plan_next_step` is the only allowed tool); the model
answers with text only, and the next turn's phase is the acting phase, not
planning again — the zero-call turn advanced the phase. -/
theorem zero_call_phase_advances_cex :
    iterTurn textAfterIntentModel okTools true cexFds 1
        (initState [Part.from_text "msg"]) = some planPhaseState ∧
    textAfterIntentModel planPhaseState.messages
        (available_functions planPhaseState.first_step planPhaseState.think
          true cexFds) = .ok [Part.from_text "let me think"] ∧
    [Part.from_text "let me think"].filterMap Part.function_call = [] ∧
    run_turn textAfterIntentModel okTools true cexFds planPhaseState =
      .continued afterTextTurnState ∧
    available_functions planPhaseState.first_step planPhaseState.think true
        cexFds = ["plan_next_step"] ∧
    available_functions afterTextTurnState.first_step afterTextTurnState.think
        true cexFds = ["foo"] := by
  exact ⟨rfl, rfl, rfl, rfl, rfl, rfl⟩

theorem scan_terminal_all_fail (rps : List Part)
    (h : ∀ p ∈ rps, submitResultFails p = true) :
    scan_terminal rps = .ok false := by
  induction rps with
  | nil => rfl
  | cons p t ih =>
    have hp := h p (List.mem_cons_self p t)
    have ih2 := ih (fun q hq => h q (List.mem_cons_of_mem p hq))
    unfold scan_terminal
    unfold submitResultFails at hp
    cases hfr : p.function_response with
    | none =>
      simp only [hfr]
      exact ih2
    | some fr =>
      simp only [hfr] at hp
      simp only [hfr]
      by_cases hname : (fr.name == "submit_report_for_review") = true
      · simp only [hname, if_true] at hp
        simp only [hname, if_true]
        cases hresp : fr.response with
        | pydict kvs =>
          simp only [hresp] at hp
          simp only [hresp, pyGet]
          cases hres : (List.lookup "result" kvs).getD (.pydict []) with
          | pydict r =>
            simp only [hres] at hp
            simp only [hres, pyGet]
            have htr : ((List.lookup "passedReview" r).getD .pynone).truthy =
                false := by
              simpa using hp
            simp only [htr, Bool.false_eq_true, if_false]
            exact ih2
          | pynone => simp [hres] at hp
          | pybool b => simp [hres] at hp
          | pyint n => simp [hres] at hp
          | pystr st => simp [hres] at hp
          | pylist xs => simp [hres] at hp
        | pynone => simp [hresp] at hp
        | pybool b => simp [hresp] at hp
        | pyint n => simp [hresp] at hp
        | pystr st => simp [hresp] at hp
        | pylist xs => simp [hresp] at hp
      · have hname2 : (fr.name == "submit_report_for_review") = false := by
          simpa using hname
        simp only [hname2, Bool.false_eq_true, if_false]
        exact ih2

/-- C5: a turn whose dispatched results include the submission tool's
result, every submission result in the merged list reporting the review
verdict as not passed, does not finish the run — this holds for fan-out
turns with arbitrary sibling tool calls: the scan skips the sibling
results, the reviewer feedback is appended to the conversation as an
ordinary tool-result Part inside the next user-role message, and the loop
continues. -/
theorem review_failed_continues (model : ModelOracle) (tools : ToolOracle)
    (ips : Bool) (fds : List String) (s : LoopState) (ps rps : List Part)
    (fb : Part)
    (h1 : model s.messages (available_functions s.first_step s.think ips fds) =
      .ok ps)
    (h2 : (ps.filterMap Part.function_call).isEmpty = false)
    (h3 : flatten_py ((ps.filterMap Part.function_call).map
      (call_function tools)) = .ok rps)
    (h4 : fb ∈ rps)
    (h5 : ∃ fr, fb.function_response = some fr ∧
      fr.name = "submit_report_for_review")
    (h6 : ∀ p ∈ rps, submitResultFails p = true) :
    run_turn model tools ips fds s =
      .continued ⟨turn_messages s.messages ps ++ [⟨"user", rps⟩],
        !(if s.first_step then false else s.think), false,
        captured_args s.return_dict ps⟩ ∧
    fb ∈ (Content.mk "user" rps).parts := by
  refine ⟨?_, h4⟩
  rw [run_turn_review_failed model tools ips fds s ps rps h1 h2 h3
    (scan_terminal_all_fail rps h6)]

/-- Closed instance of C5's theorem on a fan-out turn: a search call and a
submission call are dispatched concurrently, the review fails, the
feedback Part sits in the next user message next to the sibling's result,
and the loop continues. -/
theorem review_failed_continues_witness :
    (run_turn multiToolModel multiToolTools false []
        (initState [Part.from_text "check"]) =
      .continued ⟨turn_messages (initState [Part.from_text "check"]).messages
          multiToolParts ++ [⟨"user", [searchResultPart, submitFbPart]⟩],
        !(if (initState [Part.from_text "check"]).first_step then false
          else (initState [Part.from_text "check"]).think), false,
        some [("report", .pystr "scam")]⟩) ∧
    submitFbPart ∈ (Content.mk "user" [searchResultPart, submitFbPart]).parts :=
  review_failed_continues multiToolModel multiToolTools false []
    (initState [Part.from_text "check"]) multiToolParts
    [searchResultPart, submitFbPart] submitFbPart
    rfl rfl rfl
    (List.mem_cons_of_mem searchResultPart (List.mem_cons_self submitFbPart []))
    ⟨⟨"submit_report_for_review",
      .pydict [("result", .pydict [("feedback", .pystr "needs work"),
        ("passedReview", .pybool false)])]⟩, rfl, rfl⟩
    (by
      intro p hp
      rcases List.mem_cons.mp hp with h | h
      · subst h
        rfl
      · rcases List.mem_cons.mp h with h2 | h2
        · subst h2
          rfl
        · exact absurd h2 (List.not_mem_nil p))

/-- C1 (amended): if a reachable turn requests the designated submission
tool (capturing the arguments of its last submission request), the merged
dispatch results scan to a passing review verdict without raising, and
trace processing succeeds, then the run returns within that same turn the
captured arguments extended with the processed trace and `success=True`.
As stated the claim fails when a malformed submission result precedes the
passing one in the merged order — the scan then raises and the run returns
a failure dictionary instead; see the counterexample. -/
theorem submit_passed_terminates (model : ModelOracle) (tools : ToolOracle)
    (ips : Bool) (fds : List String) (starting_parts : List Part) (n : Nat)
    (s : LoopState) (ps rps : List Part) (A : Args) (tr : List PyVal)
    (hreach : iterTurn model tools ips fds n (initState starting_parts) = some s)
    (hlen : s.messages.length < 50)
    (hmod : model s.messages (available_functions s.first_step s.think ips fds) =
      .ok ps)
    (hsub : lastSubmitArgs ps = some A)
    (hmerge : flatten_py ((ps.filterMap Part.function_call).map
      (call_function tools)) = .ok rps)
    (hscan : scan_terminal rps = .ok true)
    (htrace : process_trace (turn_messages s.messages ps) = .ok tr) :
    generate_report model tools ips fds starting_parts =
      .ok (.pydict (dictSet (dictSet A "agent_trace" (.pylist tr)) "success"
        (.pybool true))) := by
  obtain ⟨fcx, hgl, hargs⟩ := Option.map_eq_some'.mp hsub
  have hrd : captured_args s.return_dict ps = some A := by
    unfold captured_args
    rw [hgl]
    simp [hargs]
  have hne : (ps.filterMap Part.function_call).isEmpty = false := by
    cases hl : ps.filterMap Part.function_call with
    | nil =>
      rw [hl] at hgl
      simp at hgl
    | cons a t => rfl
  have hrun : run_turn model tools ips fds s =
      .finished (success_result A (turn_messages s.messages ps)) :=
    run_turn_scan_pass model tools ips fds s ps rps A hmod hne hmerge hscan hrd
  have hn : 1 + n ≤ s.messages.length := by
    have hlen2 := iterTurn_length model tools ips fds n (initState starting_parts)
      s hreach
    simpa [initState] using hlen2
  have hbridge := loopFuel_iterTurn model tools ips fds n
    (initState starting_parts) s hreach (50 - n)
  have h50 : n + (50 - n) = 50 := by omega
  rw [h50] at hbridge
  unfold generate_report
  rw [hbridge]
  obtain ⟨f, hf⟩ : ∃ f, 50 - n = f + 1 := ⟨49 - n, by omega⟩
  rw [hf, loopFuel_succ, if_pos hlen, hrun]
  simp [success_result, htrace]

/-- Closed instance of C1's amended theorem: a single passing submission
on the first turn ends the run with the captured arguments, the trace and
`success=True`. -/
theorem submit_passed_terminates_witness :
    generate_report oneSubmitModel passReviewTools false []
        [Part.from_text "claim"] =
      .ok (.pydict (dictSet (dictSet [("report", .pystr "scam")] "agent_trace"
        (.pylist [.pydict [("role", .pystr "user"), ("text", .pystr "claim")],
          .pydict [("role", .pystr "model"),
            ("name", .pystr "submit_report_for_review"),
            ("response", .pydict [("report", .pystr "scam")])]]))
        "success" (.pybool true))) :=
  submit_passed_terminates oneSubmitModel passReviewTools false []
    [Part.from_text "claim"] 0 (initState [Part.from_text "claim"])
    [{ function_call := some ⟨"submit_report_for_review",
        [("report", .pystr "scam")]⟩ }]
    [submitPassPart] [("report", .pystr "scam")]
    [.pydict [("role", .pystr "user"), ("text", .pystr "claim")],
     .pydict [("role", .pystr "model"),
       ("name", .pystr "submit_report_for_review"),
       ("response", .pydict [("report", .pystr "scam")])]]
    rfl (by decide) rfl rfl rfl rfl rfl

/-- Counterexample to C1 as stated: one turn dispatches two submission
calls; the merged results contain a passing submission result, but the
scan reaches first a submission result whose payload holds a bare string
under "result", so the chained `get` raises and the run returns a failure
dictionary (`success=False`) in spite of the passing result being present. -/
theorem submit_pass_shadowed_cex :
    flatten_py ((twoSubmitParts.filterMap Part.function_call).map
        (call_function twoSubmitTools)) = .ok [submitStrPart, submitPassPart] ∧
    isPassingSubmit submitPassPart = true ∧
    resultField (generate_report twoSubmitModel twoSubmitTools false []
        [Part.from_text "claim"]) "success" = some (.pybool false) :=
  ⟨rfl, rfl, rfl⟩

end GeminiAgent
